import Mathlib

/-!
Shallow embedding of the Shapps project/version/file content model and its
draft-publish-rollback protocol, translated from
`packages/mcp-server/src/mcp.ts`.  The three Supabase tables (`projects`,
`project_versions`, `project_files`) become three lists of rows inside a
`DB` record; a store-allocated fresh row id is modelled by a `nextId`
counter.  Each MCP tool handler becomes a function `DB → … → DB × Result`
whose `Result` inductive has one constructor per `return` site of the
handler.  Store faults that the handlers explicitly branch on (the
new-draft insert of `publish`, the four steps of `delete_project`) are
modelled by explicit boolean fault flags; all other store calls are taken
to succeed, matching the success-path semantics the claims are about.
-/

namespace Shapps

/-- Row of the `projects` table.  `created_at` is dropped (used only for
ordering in `list_projects`, which no claim mentions); `updated_at` is kept
as an abstract `Nat` clock because `update_settings` writes it. -/
structure ProjectRow where
  id : Nat
  name : String
  slug : String
  description : Option String
  isPublic : Bool
  showSource : Bool
  status : String
  activeVersionId : Option Nat
  draftVersionId : Option Nat
  updatedAt : Nat
  deriving Repr, DecidableEq

/-- Row of the `project_versions` table (`created_at` dropped). -/
structure VersionRow where
  id : Nat
  projectId : Nat
  versionNumber : Nat
  message : String
  isDraft : Bool
  deriving Repr, DecidableEq

/-- Row of the `project_files` table (`created_at` dropped). -/
structure FileRow where
  id : Nat
  versionId : Nat
  filePath : String
  content : String
  contentType : String
  deriving Repr, DecidableEq

/-- The whole store.  `nextId` models the store's fresh-id allocator: every
insert consumes it. -/
structure DB where
  projects : List ProjectRow
  versions : List VersionRow
  files : List FileRow
  nextId : Nat
  deriving Repr, DecidableEq

/-- Store discipline: allocated ids are fresh, i.e. every id already present
in a row is below the allocator.  Every real database state satisfies this. -/
def DB.WF (db : DB) : Prop :=
  (∀ v ∈ db.versions, v.id < db.nextId) ∧ (∀ f ∈ db.files, f.versionId < db.nextId)

instance (db : DB) : Decidable db.WF := by
  unfold DB.WF; infer_instance

/-- SELECT from projects WHERE id = pid, .single(). -/
def findProject (db : DB) (pid : Nat) : Option ProjectRow :=
  db.projects.find? (fun r => r.id == pid)

/-- SELECT from project_versions WHERE id = vid, .single(). -/
def findVersion (db : DB) (vid : Nat) : Option VersionRow :=
  db.versions.find? (fun v => v.id == vid)

/-- SELECT from project_files WHERE version_id = vid. -/
def filesOf (db : DB) (vid : Nat) : List FileRow :=
  db.files.filter (fun f => f.versionId == vid)

/-- SELECT from project_versions WHERE project_id = pid. -/
def versionsOf (db : DB) (pid : Nat) : List VersionRow :=
  db.versions.filter (fun v => v.projectId == pid)

/-- The (file_path, content, content_type) payload of a file row — the part
that publish and rollback copy between versions. -/
def fileData (f : FileRow) : String × String × String :=
  (f.filePath, f.content, f.contentType)

/-- UPDATE projects SET … WHERE id = pid. -/
def DB.updateProject (db : DB) (pid : Nat) (f : ProjectRow → ProjectRow) : DB :=
  { db with projects := db.projects.map (fun r => if r.id == pid then f r else r) }

/-- UPDATE project_versions SET … WHERE id = vid. -/
def DB.updateVersion (db : DB) (vid : Nat) (f : VersionRow → VersionRow) : DB :=
  { db with versions := db.versions.map (fun v => if v.id == vid then f v else v) }

/-- INSERT INTO project_versions …, returning the new row id. -/
def DB.insertVersion (db : DB) (projectId versionNumber : Nat) (message : String)
    (isDraft : Bool) : DB × Nat :=
  ({ db with
      versions := db.versions ++ [⟨db.nextId, projectId, versionNumber, message, isDraft⟩],
      nextId := db.nextId + 1 }, db.nextId)

/-- INSERT INTO project_files (version_id, file_path, content, content_type). -/
def DB.insertFile (db : DB) (vid : Nat) (path content ctype : String) : DB :=
  { db with
      files := db.files ++ [⟨db.nextId, vid, path, content, ctype⟩],
      nextId := db.nextId + 1 }

/-- Bulk INSERT of (file_path, content, content_type) rows into one version. -/
def DB.insertFileRows (db : DB) (vid : Nat) (rows : List (String × String × String)) : DB :=
  rows.foldl (fun d r => d.insertFile vid r.1 r.2.1 r.2.2) db

/-- DELETE FROM project_files WHERE version_id = vid AND file_path = path. -/
def DB.deleteFileAt (db : DB) (vid : Nat) (path : String) : DB :=
  { db with files := db.files.filter (fun f => !(f.versionId == vid && f.filePath == path)) }

/-- DELETE FROM project_files WHERE version_id = vid. -/
def DB.deleteFilesOfVersion (db : DB) (vid : Nat) : DB :=
  { db with files := db.files.filter (fun f => !(f.versionId == vid)) }

/-- DELETE FROM project_files WHERE version_id IN vids. -/
def DB.deleteFilesIn (db : DB) (vids : List Nat) : DB :=
  { db with files := db.files.filter (fun f => !(vids.contains f.versionId)) }

/-- DELETE FROM project_versions WHERE project_id = pid. -/
def DB.deleteVersionsOf (db : DB) (pid : Nat) : DB :=
  { db with versions := db.versions.filter (fun v => !(v.projectId == pid)) }

/-- DELETE FROM projects WHERE id = pid. -/
def DB.deleteProjectRow (db : DB) (pid : Nat) : DB :=
  { db with projects := db.projects.filter (fun r => !(r.id == pid)) }

/-- The `types` record of `guessContentType` in the source, as a lookup list. -/
def contentTypes : List (String × String) :=
  [("html", "text/html"), ("css", "text/css"), ("js", "application/javascript"),
   ("ts", "application/typescript"), ("json", "application/json"),
   ("svg", "image/svg+xml"), ("png", "image/png"), ("jpg", "image/jpeg"),
   ("jpeg", "image/jpeg"), ("gif", "image/gif"), ("md", "text/markdown"),
   ("txt", "text/plain")]

/-- JavaScript `String.prototype.split` with a one-character separator, as
structural recursion over the character list.  The result is never empty:
splitting a string with no separator occurrence yields the whole string, and
splitting the empty string yields one empty piece, exactly as in JS. -/
def splitChar (sep : Char) : List Char → List (List Char)
  | [] => [[]]
  | c :: cs =>
    match splitChar sep cs with
    | [] => [[]]
    | h :: t => if c = sep then [] :: h :: t else (c :: h) :: t

/-- JavaScript `split` at the `String` level. -/
def jsSplit (s : String) (sep : Char) : List String :=
  (splitChar sep s.data).map String.mk

/-- JavaScript `toLowerCase` (ASCII, which covers every extension the table
knows). -/
def jsToLower (s : String) : String :=
  String.mk (s.data.map Char.toLower)

/-- Source `guessContentType`: `filePath.split(".").pop()?.toLowerCase()` then
table lookup with default `text/plain`.  JavaScript `split` on a string with
no separator occurrence yields the whole string, so a dot-less path is looked
up whole. -/
def guessContentType (filePath : String) : String :=
  let ext := jsToLower ((jsSplit filePath '.').getLastD "")
  ((contentTypes.lookup ext).getD "text/plain")

/-- Source `versionId = project.draft_version_id ?? project.active_version_id`. -/
def effectiveVersion (p : ProjectRow) : Option Nat :=
  match p.draftVersionId with
  | some v => some v
  | none => p.activeVersionId

/-- Return sites of the `get_project` handler. -/
inductive GetProjectResult
  | notFound
  | ok (project : ProjectRow) (files : List (String × String))
  deriving Repr, DecidableEq

/-- The `get_project` tool: load the project (error if absent), then list
(file_path, content_type) of the effective version's files (empty when the
project has no version). -/
def getProject (db : DB) (pid : Nat) : GetProjectResult :=
  match findProject db pid with
  | none => .notFound
  | some project =>
    let files :=
      match effectiveVersion project with
      | some vid => (filesOf db vid).map (fun f => (f.filePath, f.contentType))
      | none => []
    .ok project files

/-- Return sites of the `read_files` handler. -/
inductive ReadFilesResult
  | notFound
  | noVersion
  | noFiles
  | ok (files : List (String × String × String))
  deriving Repr, DecidableEq

/-- The `read_files` tool.  The path filter is applied only when `file_paths`
is present AND non-empty (`if (file_paths && file_paths.length > 0)`). -/
def readFiles (db : DB) (pid : Nat) (filePaths : Option (List String)) : ReadFilesResult :=
  match findProject db pid with
  | none => .notFound
  | some project =>
    match effectiveVersion project with
    | none => .noVersion
    | some vid =>
      let rows := filesOf db vid
      let rows : List FileRow :=
        match filePaths with
        | some ps => if ps.length > 0 then rows.filter (fun f => ps.contains f.filePath) else rows
        | none => rows
      if rows.length == 0 then .noFiles else .ok (rows.map fileData)

/-- One element of the `files` argument of `write_files`. -/
structure FileInput where
  file_path : String
  content : String
  content_type : Option String
  deriving Repr, DecidableEq

/-- Return sites of the `write_files` handler. -/
inductive WriteFilesResult
  | notFound
  | noDraft
  | ok (results : List String)
  deriving Repr, DecidableEq

/-- The per-file body of the `write_files` loop: delete any existing file at
that path within the draft, then insert the new row with the explicit
content type or the guessed one. -/
def applyWrite (db : DB) (draftId : Nat) (file : FileInput) : DB :=
  let contentType := file.content_type.getD (guessContentType file.file_path)
  (db.deleteFileAt draftId file.file_path).insertFile draftId file.file_path
    file.content contentType

/-- The `write_files` tool (all store calls succeeding, so every per-file
outcome is the OK line). -/
def writeFiles (db : DB) (pid : Nat) (files : List FileInput) : DB × WriteFilesResult :=
  match findProject db pid with
  | none => (db, .notFound)
  | some project =>
    match project.draftVersionId with
    | none => (db, .noDraft)
    | some draftId =>
      let db' := files.foldl (fun d f => applyWrite d draftId f) db
      (db', .ok (files.map (fun f => String.append "OK " f.file_path)))

/-- Return sites of the `publish` handler. -/
inductive PublishResult
  | loadError
  | noDraft
  | publishError
  | publishedButDraftFailed
  | published (liveUrl : String) (versionNumber : Nat) (newDraftVersionId : Nat)
  deriving Repr, DecidableEq

/-- The `publish` tool.  `draftInsertFails` models the one store fault the
handler branches on: the INSERT of the fresh draft version.  (The earlier
UPDATE marking the old draft published is taken to succeed, so the
`publishError` return site is never produced by this model.)  On the fault
path the handler still advances the project pointers before reporting. -/
def publish (db : DB) (pid : Nat) (message : Option String) (draftInsertFails : Bool) :
    DB × PublishResult :=
  match findProject db pid with
  | none => (db, .loadError)
  | some project =>
    match project.draftVersionId with
    | none => (db, .noDraft)
    | some draftId =>
      let db1 := db.updateVersion draftId
        (fun v => { v with isDraft := false, message := message.getD "Published" })
      let publishedVersionId := draftId
      let publishedNumber := ((findVersion db1 publishedVersionId).map
        (fun v => v.versionNumber)).getD 1
      let nextVersionNumber := publishedNumber + 1
      if draftInsertFails then
        let db2 := db1.updateProject project.id (fun r =>
          { r with activeVersionId := some publishedVersionId, draftVersionId := none,
                   status := "published" })
        (db2, .publishedButDraftFailed)
      else
        let ins := db1.insertVersion project.id nextVersionNumber "Draft" true
        let db2 := ins.1
        let newDraftId := ins.2
        let files := filesOf db2 publishedVersionId
        let db3 := if files.length > 0 then db2.insertFileRows newDraftId (files.map fileData)
          else db2
        let db4 := db3.updateProject project.id (fun r =>
          { r with activeVersionId := some publishedVersionId,
                   draftVersionId := some newDraftId, status := "published" })
        (db4, .published (String.append "/app/" project.slug) publishedNumber newDraftId)

/-- Return sites of the `rollback` handler. -/
inductive RollbackResult
  | loadError
  | noDraft
  | versionNotFound
  | copyError
  | ok (versionNumber : Nat) (filesCopied : Nat)
  deriving Repr, DecidableEq

/-- The `rollback` tool: verify the target version belongs to the project,
read its files, delete all draft files, insert copies of the target's files
into the draft.  (All store calls succeed, so the `copyError` site is never
produced by this model.) -/
def rollback (db : DB) (pid vid : Nat) : DB × RollbackResult :=
  match findProject db pid with
  | none => (db, .loadError)
  | some project =>
    match project.draftVersionId with
    | none => (db, .noDraft)
    | some draftId =>
      match db.versions.find? (fun v => v.id == vid && v.projectId == pid) with
      | none => (db, .versionNotFound)
      | some target =>
        let sourceFiles := (filesOf db vid).map fileData
        let db1 := db.deleteFilesOfVersion draftId
        let db2 := if sourceFiles.length > 0 then db1.insertFileRows draftId sourceFiles else db1
        (db2, .ok target.versionNumber sourceFiles.length)

/-- Return sites of the `update_settings` handler. -/
inductive UpdateSettingsResult
  | nothingToUpdate
  | notFound
  | ok (id : Nat) (name slug : String) (description : Option String)
      (isPublic showSource : Bool)
  deriving Repr, DecidableEq

/-- The field mutation `update_settings` sends to the store: each supplied
field, plus `updated_at := now`. -/
def applySettings (name slug description : Option String) (isPublic showSource : Option Bool)
    (now : Nat) (r : ProjectRow) : ProjectRow :=
  { r with
      name := name.getD r.name,
      slug := slug.getD r.slug,
      description := match description with | some d => some d | none => r.description,
      isPublic := isPublic.getD r.isPublic,
      showSource := showSource.getD r.showSource,
      updatedAt := now }

/-- The `update_settings` tool.  The emptiness check on the `updates` object
happens before `updated_at` is added and before any store call.  `now` is
the clock value the handler stamps into `updated_at`. -/
def updateSettings (db : DB) (pid : Nat) (now : Nat)
    (name slug description : Option String) (isPublic showSource : Option Bool) :
    DB × UpdateSettingsResult :=
  if name.isNone && slug.isNone && description.isNone
      && isPublic.isNone && showSource.isNone then
    (db, .nothingToUpdate)
  else
    match findProject db pid with
    | none => (db, .notFound)
    | some r0 =>
      let r1 := applySettings name slug description isPublic showSource now r0
      (db.updateProject pid (applySettings name slug description isPublic showSource now),
       .ok r1.id r1.name r1.slug r1.description r1.isPublic r1.showSource)

/-- The four storage steps of `delete_project`, in the order the handler
attempts them. -/
inductive DeleteStep
  | clearPointers
  | deleteFiles
  | deleteVersions
  | deleteProject
  deriving Repr, DecidableEq

/-- Fault flags for the four storage steps of `delete_project`. -/
structure DeleteFaults where
  clearFails : Bool
  filesDeleteFails : Bool
  versionsDeleteFails : Bool
  projectDeleteFails : Bool
  deriving Repr, DecidableEq

/-- Return sites of the `delete_project` handler. -/
inductive DeleteResult
  | notConfirmed
  | clearError
  | deleteError
  | deleted
  deriving Repr, DecidableEq

/-- The `delete_project` tool, with a fault flag per storage step and a trace
of the steps attempted.  The handler checks the error of the pointer-clearing
UPDATE and of the final project DELETE, but discards the results of the file
and version DELETEs: when those fail (rows stay), execution continues and the
outcome is whatever the remaining steps produce. -/
def deleteProject (db : DB) (pid : Nat) (confirm : Bool) (faults : DeleteFaults) :
    DB × DeleteResult × List DeleteStep :=
  if !confirm then
    (db, .notConfirmed, [])
  else if faults.clearFails then
    (db, .clearError, [.clearPointers])
  else
    let db1 := db.updateProject pid
      (fun r => { r with activeVersionId := none, draftVersionId := none })
    let versionIds := (versionsOf db1 pid).map (fun v => v.id)
    let filesStep : List DeleteStep := if versionIds.length > 0 then [.deleteFiles] else []
    let db2 := if versionIds.length > 0 then
        (if faults.filesDeleteFails then db1 else db1.deleteFilesIn versionIds)
      else db1
    let db3 := if faults.versionsDeleteFails then db2 else db2.deleteVersionsOf pid
    let trace := .clearPointers :: (filesStep ++ [.deleteVersions, .deleteProject])
    if faults.projectDeleteFails then
      (db3, .deleteError, trace)
    else
      (db3.deleteProjectRow pid, .deleted, trace)

/-! Concrete database states used to witness the hypotheses of the claim
theorems: one project (id 1) whose draft is version 2 holding one file, and a
second project (id 9) with its own draft version 10, for the cross-project
rollback case. -/

/-- Sample project: id 1, draft version 2, never published. -/
def p1 : ProjectRow := ⟨1, "Demo", "demo", none, false, false, "draft", none, some 2, 0⟩

/-- Sample draft version of project 1. -/
def v2 : VersionRow := ⟨2, 1, 1, "Initial version", true⟩

/-- Sample file of version 2. -/
def f3 : FileRow := ⟨3, 2, "index.html", "<h1>Hi</h1>", "text/html"⟩

/-- Sample store with one project. -/
def db0 : DB := ⟨[p1], [v2], [f3], 4⟩

/-- Second sample project: id 9, draft version 10. -/
def p9 : ProjectRow := ⟨9, "Other", "other", none, false, false, "draft", none, some 10, 0⟩

/-- Sample draft version of project 9. -/
def v10 : VersionRow := ⟨10, 9, 1, "Initial version", true⟩

/-- Sample store with two projects, for cross-project id confusion. -/
def db2p : DB := ⟨[p1, p9], [v2, v10], [f3], 11⟩

/-- All four storage steps of `delete_project` succeed. -/
def noFaults : DeleteFaults := ⟨false, false, false, false⟩

/-- The content-type table exactly as the claim lists it. -/
def claimTypeTable : List (String × String) :=
  [("html", "text/html"), ("css", "text/css"), ("js", "application/javascript"),
   ("ts", "application/typescript"), ("json", "application/json"),
   ("svg", "image/svg+xml"), ("png", "image/png"), ("jpg", "image/jpeg"),
   ("jpeg", "image/jpeg"), ("gif", "image/gif"), ("md", "text/markdown"),
   ("txt", "text/plain")]

/-- Modelled from the claim's words, for comparison with the source's
`guessContentType`: the path's extension is the segment after the last dot
when the path contains a dot, and is missing otherwise; a missing or
unlisted extension maps to text/plain. -/
def claimExtension (path : String) : Option String :=
  match jsSplit path '.' with
  | [] => none
  | [_] => none
  | parts => parts.getLast?

/-- Modelled from the claim's words: table lookup of the extension, with
text/plain for a missing or unlisted extension. -/
def claimContentType (path : String) : String :=
  match claimExtension path with
  | none => "text/plain"
  | some e => (claimTypeTable.lookup e).getD "text/plain"

/-- The extension the source actually uses: the lowercased last dot-separated
segment, which is the whole path when it contains no dot. -/
def sourceExtension (path : String) : String :=
  jsToLower ((jsSplit path '.').getLastD "")

/-! Helper lemmas about the store primitives. -/

theorem findProject_updateVersion (db : DB) (vid : Nat) (f : VersionRow → VersionRow)
    (pid : Nat) : findProject (db.updateVersion vid f) pid = findProject db pid := rfl

theorem findProject_insertVersion (db : DB) (a b : Nat) (m : String) (d : Bool)
    (pid : Nat) : findProject (db.insertVersion a b m d).1 pid = findProject db pid := rfl

theorem findProject_insertFile (db : DB) (vid : Nat) (p c t : String)
    (pid : Nat) : findProject (db.insertFile vid p c t) pid = findProject db pid := rfl

theorem findVersion_updateProject (db : DB) (pid : Nat) (f : ProjectRow → ProjectRow)
    (vid : Nat) : findVersion (db.updateProject pid f) vid = findVersion db vid := rfl

theorem filesOf_updateProject (db : DB) (pid : Nat) (f : ProjectRow → ProjectRow)
    (vid : Nat) : filesOf (db.updateProject pid f) vid = filesOf db vid := rfl

theorem filesOf_updateVersion (db : DB) (w : Nat) (f : VersionRow → VersionRow)
    (vid : Nat) : filesOf (db.updateVersion w f) vid = filesOf db vid := rfl

theorem filesOf_insertVersion (db : DB) (a b : Nat) (m : String) (d : Bool)
    (vid : Nat) : filesOf (db.insertVersion a b m d).1 vid = filesOf db vid := rfl

/-- Updating rows keyed by `k` maps the row found at any key, because the
update cannot change `id` (hypothesis `hf`). -/
theorem findProject_updateProject (db : DB) (k : Nat) (f : ProjectRow → ProjectRow)
    (hf : ∀ r, (f r).id = r.id) (k' : Nat) :
    findProject (db.updateProject k f) k'
      = (findProject db k').map (fun r => if r.id == k then f r else r) := by
  unfold findProject DB.updateProject
  rw [List.find?_map]
  have hp : ((fun r => r.id == k') ∘ fun r : ProjectRow => if r.id == k then f r else r)
      = (fun r : ProjectRow => r.id == k') := by
    funext r
    simp only [Function.comp_apply]
    by_cases h : r.id == k
    · simp [h, hf]
    · simp [h]
  rw [hp]

/-- Same fact for the versions table. -/
theorem findVersion_updateVersion (db : DB) (k : Nat) (f : VersionRow → VersionRow)
    (hf : ∀ v, (f v).id = v.id) (k' : Nat) :
    findVersion (db.updateVersion k f) k'
      = (findVersion db k').map (fun v => if v.id == k then f v else v) := by
  unfold findVersion DB.updateVersion
  rw [List.find?_map]
  have hp : ((fun v => v.id == k') ∘ fun v : VersionRow => if v.id == k then f v else v)
      = (fun v : VersionRow => v.id == k') := by
    funext v
    simp only [Function.comp_apply]
    by_cases h : v.id == k
    · simp [h, hf]
    · simp [h]
  rw [hp]

/-- Looking up a version id after an insert: the old table first, then the
new row. -/
theorem findVersion_insertVersion (db : DB) (a b : Nat) (m : String) (d : Bool) (k : Nat) :
    findVersion (db.insertVersion a b m d).1 k
      = (findVersion db k).or (if db.nextId == k then some ⟨db.nextId, a, b, m, d⟩ else none) := by
  unfold findVersion DB.insertVersion
  simp only [List.find?_append]
  congr 1
  by_cases h : db.nextId == k <;> simp [List.find?, h]

/-- In a well-formed store the allocator value is not yet a version id. -/
theorem findVersion_nextId (db : DB) (hwf : db.WF) : findVersion db db.nextId = none := by
  apply List.find?_eq_none.mpr
  intro v hv
  have := hwf.1 v hv
  simp only [beq_iff_eq]
  omega

/-- In a well-formed store no file row points at the allocator value. -/
theorem filesOf_nextId (db : DB) (hwf : db.WF) : filesOf db db.nextId = [] := by
  unfold filesOf
  apply List.filter_eq_nil_iff.mpr
  intro f hf
  have := hwf.2 f hf
  simp only [beq_iff_eq]
  omega

theorem insertFileRows_projects (db : DB) (vid : Nat) (rows : List (String × String × String)) :
    (db.insertFileRows vid rows).projects = db.projects := by
  induction rows generalizing db with
  | nil => rfl
  | cons r rs ih => exact ih _

theorem insertFileRows_versions (db : DB) (vid : Nat) (rows : List (String × String × String)) :
    (db.insertFileRows vid rows).versions = db.versions := by
  induction rows generalizing db with
  | nil => rfl
  | cons r rs ih => exact ih _

/-- Bulk-inserting rows into version `vid` appends exactly those payloads to
`vid`'s file list. -/
theorem filesOf_insertFileRows_self (db : DB) (vid : Nat)
    (rows : List (String × String × String)) :
    (filesOf (db.insertFileRows vid rows) vid).map fileData
      = (filesOf db vid).map fileData ++ rows := by
  induction rows generalizing db with
  | nil => simp [DB.insertFileRows]
  | cons r rs ih =>
    have step : (filesOf (db.insertFile vid r.1 r.2.1 r.2.2) vid).map fileData
        = (filesOf db vid).map fileData ++ [r] := by
      unfold filesOf DB.insertFile
      simp [List.filter_append, fileData]
    calc (filesOf ((db.insertFile vid r.1 r.2.1 r.2.2).insertFileRows vid rs) vid).map fileData
        = (filesOf (db.insertFile vid r.1 r.2.1 r.2.2) vid).map fileData ++ rs := ih _
      _ = ((filesOf db vid).map fileData ++ [r]) ++ rs := by rw [step]
      _ = (filesOf db vid).map fileData ++ (r :: rs) := by simp

/-- Bulk-inserting rows into `vid` leaves every other version's files alone. -/
theorem filesOf_insertFileRows_other (db : DB) (vid : Nat)
    (rows : List (String × String × String)) (w : Nat) (hw : vid ≠ w) :
    filesOf (db.insertFileRows vid rows) w = filesOf db w := by
  induction rows generalizing db with
  | nil => rfl
  | cons r rs ih =>
    have step : filesOf (db.insertFile vid r.1 r.2.1 r.2.2) w = filesOf db w := by
      unfold filesOf DB.insertFile
      have : (vid == w) = false := by simp [hw]
      simp [List.filter_append, this]
    rw [DB.insertFileRows, List.foldl_cons]
    have := ih (db.insertFile vid r.1 r.2.1 r.2.2)
    rw [DB.insertFileRows] at this
    rw [this, step]

/-- Deleting a version's files empties that version's file list. -/
theorem filesOf_deleteFilesOfVersion_self (db : DB) (vid : Nat) :
    filesOf (db.deleteFilesOfVersion vid) vid = [] := by
  unfold filesOf DB.deleteFilesOfVersion
  apply List.filter_eq_nil_iff.mpr
  intro f hf
  rcases List.mem_filter.mp hf with ⟨-, h⟩
  simp only [Bool.not_eq_true'] at h
  simp [h]

/-- A `find?` for key `k` over a first match returns a row whose key is `k`. -/
theorem findProject_some_id (db : DB) (pid : Nat) (p : ProjectRow)
    (h : findProject db pid = some p) : p.id = pid := by
  have := List.find?_some h
  simpa using this

theorem findVersion_some_id (db : DB) (vid : Nat) (v : VersionRow)
    (h : findVersion db vid = some v) : v.id = vid := by
  have := List.find?_some h
  simpa using this

theorem findVersion_mem (db : DB) (vid : Nat) (v : VersionRow)
    (h : findVersion db vid = some v) : v ∈ db.versions :=
  List.mem_of_find?_eq_some h

theorem applyWrite_projects (db : DB) (d : Nat) (fi : FileInput) :
    (applyWrite db d fi).projects = db.projects := rfl

theorem applyWrite_versions (db : DB) (d : Nat) (fi : FileInput) :
    (applyWrite db d fi).versions = db.versions := rfl

/-- Once the project row and its draft pointer are known, `write_files` is the
per-file delete-then-insert fold. -/
theorem writeFiles_state (db : DB) (pid : Nat) (p : ProjectRow) (d : Nat)
    (files : List FileInput)
    (h1 : findProject db pid = some p) (h2 : p.draftVersionId = some d) :
    (writeFiles db pid files).1 = files.foldl (fun acc f => applyWrite acc d f) db := by
  simp [writeFiles, h1, h2]

/-- The upsert shape of one `write_files` iteration: afterwards the draft
holds exactly one file at the written path, carrying the written content and
the explicit-or-guessed content type. -/
theorem filesAt_applyWrite (db : DB) (d : Nat) (path c : String) (ct : Option String) :
    (filesOf (applyWrite db d ⟨path, c, ct⟩) d).filter (fun r => r.filePath == path)
      = [⟨db.nextId, d, path, c, ct.getD (guessContentType path)⟩] := by
  unfold applyWrite DB.insertFile DB.deleteFileAt filesOf
  simp [List.filter_append, List.filter_filter]
  exact fun a _ h1 h2 => ⟨h2, h1⟩

/-- A `find?` matching key `k` over rows whose `k`-matches were filtered out
finds nothing. -/
theorem find?_filter_not_self {α : Type} (l : List α) (p : α → Bool) :
    (l.filter (fun a => !(p a))).find? p = none := by
  apply List.find?_eq_none.mpr
  intro a ha
  have h := (List.mem_filter.mp ha).2
  simp only [Bool.not_eq_true'] at h
  simp [h]

theorem filter_not_filter_nil {α : Type} (l : List α) (p : α → Bool) :
    (l.filter (fun a => !(p a))).filter p = [] := by
  apply List.filter_eq_nil_iff.mpr
  intro a ha
  have h := (List.mem_filter.mp ha).2
  simp only [Bool.not_eq_true'] at h
  simp [h]

/-- Deleting the files of a set of versions empties each of those versions. -/
theorem filesOf_deleteFilesIn_mem (db : DB) (vids : List Nat) (w : Nat) (hw : w ∈ vids) :
    filesOf (db.deleteFilesIn vids) w = [] := by
  unfold filesOf DB.deleteFilesIn
  apply List.filter_eq_nil_iff.mpr
  intro f hf
  have h := (List.mem_filter.mp hf).2
  simp only [Bool.not_eq_true'] at h
  intro hcon
  have hfw : f.versionId = w := by simpa using hcon
  rw [hfw] at h
  simp at h
  exact h hw

theorem insertVersion_snd (db : DB) (a b : Nat) (m : String) (dr : Bool) :
    (db.insertVersion a b m dr).2 = db.nextId := rfl

theorem updateVersion_nextId (db : DB) (k : Nat) (f : VersionRow → VersionRow) :
    (db.updateVersion k f).nextId = db.nextId := rfl

theorem findVersion_insertFileRows (db : DB) (vid : Nat)
    (rows : List (String × String × String)) (x : Nat) :
    findVersion (db.insertFileRows vid rows) x = findVersion db x := by
  unfold findVersion
  rw [insertFileRows_versions]

theorem findProject_insertFileRows (db : DB) (vid : Nat)
    (rows : List (String × String × String)) (x : Nat) :
    findProject (db.insertFileRows vid rows) x = findProject db x := by
  unfold findProject
  rw [insertFileRows_projects]

/-! Claim theorems. -/

/-- C4: whenever a project exists and has a draft but the given target
version id does not belong to it (in particular when it belongs to a
different project), `rollback` fails with the not-found outcome and the
whole store — draft files and every project/version row — is unchanged. -/
theorem rollback_foreign_version_notfound (db : DB) (pid vid : Nat) (p : ProjectRow) (d : Nat)
    (h1 : findProject db pid = some p) (h2 : p.draftVersionId = some d)
    (h3 : db.versions.find? (fun v => v.id == vid && v.projectId == pid) = none) :
    rollback db pid vid = (db, RollbackResult.versionNotFound) := by
  simp [rollback, h1, h2, h3]

/-- Witness for C4: in the two-project store, rolling project 1 back to
version 10 — which belongs to project 9 — is refused and changes nothing. -/
theorem rollback_foreign_version_notfound_witness :
    rollback db2p 1 10 = (db2p, RollbackResult.versionNotFound) :=
  rollback_foreign_version_notfound db2p 1 10 p1 2 rfl rfl rfl

/-- C10: for a project with an effective version, `read_files` with an empty
`file_paths` array behaves exactly like omitting `file_paths`, and (when the
version has files) returns all of the effective version's files. -/
theorem readFiles_empty_array_reads_all (db : DB) (pid : Nat) (p : ProjectRow) (vid : Nat)
    (h1 : findProject db pid = some p) (h2 : effectiveVersion p = some vid) :
    readFiles db pid (some []) = readFiles db pid none ∧
    (filesOf db vid ≠ [] →
      readFiles db pid (some []) = ReadFilesResult.ok ((filesOf db vid).map fileData)) := by
  constructor
  · simp [readFiles, h1, h2]
  · intro hne
    have hlen : ((filesOf db vid).length == 0) = false := by
      simp [List.length_eq_zero, hne]
    simp [readFiles, h1, h2, hlen]

/-- Witness for C10 at the sample store: project 1's draft version 2 holds
one file, and the empty-array read returns it just like the omitted-argument
read. -/
theorem readFiles_empty_array_reads_all_witness :
    readFiles db0 1 (some []) = readFiles db0 1 none ∧
    (filesOf db0 2 ≠ [] →
      readFiles db0 1 (some []) = ReadFilesResult.ok ((filesOf db0 2).map fileData)) :=
  readFiles_empty_array_reads_all db0 1 p1 2 rfl rfl

/-- C2: when the new-draft INSERT fails after the old draft was marked
published, `publish` still advances the project pointers — active version set
to the published draft, draft pointer cleared, status published — and the
caller is told publish succeeded but draft creation failed. -/
theorem publish_draft_failure_advances_pointers (db : DB) (pid : Nat) (msg : Option String)
    (p : ProjectRow) (d : Nat)
    (h1 : findProject db pid = some p) (h2 : p.draftVersionId = some d) :
    (publish db pid msg true).2 = PublishResult.publishedButDraftFailed ∧
    findProject (publish db pid msg true).1 pid
      = some { p with activeVersionId := some d, draftVersionId := none,
                      status := "published" } := by
  have hid : p.id = pid := findProject_some_id db pid p h1
  constructor
  · simp [publish, h1, h2]
  · simp only [publish, h1, h2, if_true]
    rw [findProject_updateProject _ _ _ (by intro r; rfl) pid, findProject_updateVersion, h1]
    simp [hid]

/-- Witness for C2 at the sample store. -/
theorem publish_draft_failure_advances_pointers_witness :
    (publish db0 1 none true).2 = PublishResult.publishedButDraftFailed ∧
    findProject (publish db0 1 none true).1 1
      = some { p1 with activeVersionId := some 2, draftVersionId := none,
                       status := "published" } :=
  publish_draft_failure_advances_pointers db0 1 none p1 2 rfl rfl

/-- C7: `write_files` is idempotent per path — writing the same path twice,
whether in one call or in two successive calls, leaves exactly one file at
that path in the draft version, holding the latest content; the second write
replaces rather than duplicates. -/
theorem writeFiles_upsert_idempotent (db : DB) (pid : Nat) (p : ProjectRow) (d : Nat)
    (path c : String) (ct : Option String)
    (h1 : findProject db pid = some p) (h2 : p.draftVersionId = some d) :
    (((filesOf (writeFiles db pid [⟨path, c, ct⟩, ⟨path, c, ct⟩]).1 d).filter
        (fun r => r.filePath == path)).map fileData
      = [(path, c, ct.getD (guessContentType path))]) ∧
    (((filesOf (writeFiles (writeFiles db pid [⟨path, c, ct⟩]).1 pid [⟨path, c, ct⟩]).1 d).filter
        (fun r => r.filePath == path)).map fileData
      = [(path, c, ct.getD (guessContentType path))]) := by
  have e1 : (writeFiles db pid [⟨path, c, ct⟩]).1 = applyWrite db d ⟨path, c, ct⟩ :=
    writeFiles_state db pid p d [⟨path, c, ct⟩] h1 h2
  have h1' : findProject (applyWrite db d ⟨path, c, ct⟩) pid = some p := by
    unfold findProject
    rw [applyWrite_projects]
    exact h1
  constructor
  · rw [writeFiles_state db pid p d _ h1 h2]
    simp only [List.foldl_cons, List.foldl_nil]
    rw [filesAt_applyWrite]
    rfl
  · rw [e1, writeFiles_state _ pid p d _ h1' h2]
    simp only [List.foldl_cons, List.foldl_nil]
    rw [filesAt_applyWrite]
    rfl

/-- Witness for C7 at the sample store, overwriting the existing draft file
path both ways. -/
theorem writeFiles_upsert_idempotent_witness :
    (((filesOf (writeFiles db0 1 [⟨"index.html", "new", none⟩,
          ⟨"index.html", "new", none⟩]).1 2).filter
        (fun r => r.filePath == "index.html")).map fileData
      = [("index.html", "new", Option.none.getD (guessContentType "index.html"))]) ∧
    (((filesOf (writeFiles (writeFiles db0 1 [⟨"index.html", "new", none⟩]).1 1
          [⟨"index.html", "new", none⟩]).1 2).filter
        (fun r => r.filePath == "index.html")).map fileData
      = [("index.html", "new", Option.none.getD (guessContentType "index.html"))]) :=
  writeFiles_upsert_idempotent db0 1 p1 2 "index.html" "new" none rfl rfl

/-- C8 counterexample: the path "png" has no extension in the claim's sense
(it contains no dot), so the claim's table maps it to text/plain; but the
code stores image/png for it, because `split(".").pop()` yields the whole
dot-less path and that is looked up in the table. -/
theorem write_contentType_counterexample :
    claimContentType "png" = "text/plain" ∧
    ((filesOf (writeFiles db0 1 [⟨"png", "x", none⟩]).1 2).filter
        (fun r => r.filePath == "png")).map (fun r => r.contentType) = ["image/png"] ∧
    ("image/png" : String) ≠ "text/plain" := by
  refine ⟨by decide, ?_, by decide⟩
  decide

/-- C8 amended: for a file written without an explicit contentType, the
stored contentType is the claim's fixed table applied to the extension
computed as the lowercased last dot-separated segment of the path — which is
the whole path when it contains no dot — with any unlisted extension mapping
to text/plain; an explicitly supplied contentType is stored as given. -/
theorem write_contentType_table (db : DB) (pid : Nat) (p : ProjectRow) (d : Nat)
    (path c ctype : String)
    (h1 : findProject db pid = some p) (h2 : p.draftVersionId = some d) :
    (((filesOf (writeFiles db pid [⟨path, c, none⟩]).1 d).filter
        (fun r => r.filePath == path)).map (fun r => r.contentType)
      = [(claimTypeTable.lookup (sourceExtension path)).getD "text/plain"]) ∧
    (((filesOf (writeFiles db pid [⟨path, c, some ctype⟩]).1 d).filter
        (fun r => r.filePath == path)).map (fun r => r.contentType)
      = [ctype]) := by
  have hguess : guessContentType path
      = (claimTypeTable.lookup (sourceExtension path)).getD "text/plain" := rfl
  constructor
  · rw [writeFiles_state db pid p d _ h1 h2]
    simp only [List.foldl_cons, List.foldl_nil]
    rw [filesAt_applyWrite]
    simp [hguess]
  · rw [writeFiles_state db pid p d _ h1 h2]
    simp only [List.foldl_cons, List.foldl_nil]
    rw [filesAt_applyWrite]
    simp

/-- Witness for the amended C8 at the sample store: a css path gets the
table's type, and an explicit type is stored untouched. -/
theorem write_contentType_table_witness :
    (((filesOf (writeFiles db0 1 [⟨"a.CSS", "x", none⟩]).1 2).filter
        (fun r => r.filePath == "a.CSS")).map (fun r => r.contentType)
      = [(claimTypeTable.lookup (sourceExtension "a.CSS")).getD "text/plain"]) ∧
    (((filesOf (writeFiles db0 1 [⟨"a.CSS", "x", some "application/json"⟩]).1 2).filter
        (fun r => r.filePath == "a.CSS")).map (fun r => r.contentType)
      = ["application/json"]) :=
  write_contentType_table db0 1 p1 2 "a.CSS" "x" "application/json" rfl rfl

/-- C9 counterexample: `update_settings` supplying only `name` also changes
the project's `updatedAt` field (an unsupplied field, stamped with the call
time 5), so the claim that every unsupplied project field keeps its prior
value fails. -/
theorem updateSettings_updatedAt_counterexample :
    findProject (updateSettings db0 1 5 (some "New") none none none none).1 1
      = some { p1 with name := "New", updatedAt := 5 } ∧
    p1.updatedAt = 0 ∧ (5 : Nat) ≠ 0 := by
  refine ⟨by decide, rfl, by decide⟩

/-- C9 amended: `update_settings` changes only the fields supplied in the
call plus the `updatedAt` timestamp (always stamped with the current time),
leaving every other project field at its prior value and every other row
untouched; a call supplying zero updatable fields performs no mutation at
all and returns the distinct nothing-to-update outcome. -/
theorem updateSettings_frame (db : DB) (pid now : Nat)
    (name slug description : Option String) (isPublic showSource : Option Bool)
    (p : ProjectRow) (h1 : findProject db pid = some p)
    (hsome : (name.isNone && slug.isNone && description.isNone
        && isPublic.isNone && showSource.isNone) = false) :
    updateSettings db pid now none none none none none
        = (db, UpdateSettingsResult.nothingToUpdate) ∧
    (findProject (updateSettings db pid now name slug description isPublic showSource).1 pid
        = some { p with
            name := name.getD p.name,
            slug := slug.getD p.slug,
            description := match description with | some x => some x | none => p.description,
            isPublic := isPublic.getD p.isPublic,
            showSource := showSource.getD p.showSource,
            updatedAt := now }) ∧
    (updateSettings db pid now name slug description isPublic showSource).1.versions
        = db.versions ∧
    (updateSettings db pid now name slug description isPublic showSource).1.files
        = db.files ∧
    (∀ q ∈ db.projects, q.id ≠ pid →
        q ∈ (updateSettings db pid now name slug description isPublic showSource).1.projects) ∧
    (updateSettings db pid now name slug description isPublic showSource).2
        = UpdateSettingsResult.ok p.id (name.getD p.name) (slug.getD p.slug)
            (match description with | some x => some x | none => p.description)
            (isPublic.getD p.isPublic) (showSource.getD p.showSource) := by
  have hid : p.id = pid := findProject_some_id db pid p h1
  refine ⟨by simp [updateSettings], ?_, ?_, ?_, ?_, ?_⟩
  · simp only [updateSettings, hsome, Bool.false_eq_true, if_false, h1]
    rw [findProject_updateProject _ _ _ (by intro r; rfl) pid, h1]
    simp [hid, applySettings]
    cases description <;> rfl
  · simp only [updateSettings, hsome, Bool.false_eq_true, if_false, h1]
    rfl
  · simp only [updateSettings, hsome, Bool.false_eq_true, if_false, h1]
    rfl
  · intro q hq hqid
    simp only [updateSettings, hsome, Bool.false_eq_true, if_false, h1,
      DB.updateProject]
    have : (fun r : ProjectRow => if r.id == pid then
        applySettings name slug description isPublic showSource now r else r) q = q := by
      simp [hqid]
    exact this ▸ List.mem_map_of_mem _ hq
  · simp only [updateSettings, hsome, Bool.false_eq_true, if_false, h1]
    simp [applySettings]
    cases description <;> rfl

/-- Witness for the amended C9 at the sample store: supplying only the name
changes the name and the timestamp, keeps everything else, and the all-absent
call is the distinct no-op. -/
theorem updateSettings_frame_witness :
    updateSettings db0 1 7 none none none none none
        = (db0, UpdateSettingsResult.nothingToUpdate) ∧
    (findProject (updateSettings db0 1 7 (some "New") none none none none).1 1
        = some { p1 with
            name := (some "New").getD p1.name,
            slug := Option.none.getD p1.slug,
            description := p1.description,
            isPublic := Option.none.getD p1.isPublic,
            showSource := Option.none.getD p1.showSource,
            updatedAt := 7 }) ∧
    (updateSettings db0 1 7 (some "New") none none none none).1.versions = db0.versions ∧
    (updateSettings db0 1 7 (some "New") none none none none).1.files = db0.files ∧
    (∀ q ∈ db0.projects, q.id ≠ 1 →
        q ∈ (updateSettings db0 1 7 (some "New") none none none none).1.projects) ∧
    (updateSettings db0 1 7 (some "New") none none none none).2
        = UpdateSettingsResult.ok p1.id ((some "New").getD p1.name)
            (Option.none.getD p1.slug) p1.description
            (Option.none.getD p1.isPublic) (Option.none.getD p1.showSource) :=
  updateSettings_frame db0 1 7 (some "New") none none none none p1 rfl rfl

/-- C3: a successful rollback makes the draft's file set exactly equal to the
target version's file set (all prior draft files discarded, however many
there were), creates no version, changes no version number, publishes
nothing (the project rows are untouched), and reports `filesCopied` equal to
the number of files in the target version. -/
theorem rollback_replaces_draft_files (db : DB) (pid vid : Nat) (p : ProjectRow) (d : Nat)
    (tv : VersionRow)
    (h1 : findProject db pid = some p) (h2 : p.draftVersionId = some d)
    (h3 : db.versions.find? (fun v => v.id == vid && v.projectId == pid) = some tv) :
    (filesOf (rollback db pid vid).1 d).map fileData = (filesOf db vid).map fileData ∧
    (rollback db pid vid).1.versions = db.versions ∧
    (rollback db pid vid).1.projects = db.projects ∧
    (rollback db pid vid).2 = RollbackResult.ok tv.versionNumber (filesOf db vid).length := by
  simp only [rollback, h1, h2, h3, List.length_map]
  by_cases hlen : (filesOf db vid).length > 0
  · rw [if_pos hlen]
    refine ⟨?_, ?_, ?_, ?_⟩
    · rw [filesOf_insertFileRows_self, filesOf_deleteFilesOfVersion_self]
      rfl
    · rw [insertFileRows_versions]
      rfl
    · rw [insertFileRows_projects]
      rfl
    · trivial
  · rw [if_neg hlen]
    have hnil : filesOf db vid = [] := by
      cases hmap : filesOf db vid with
      | nil => rfl
      | cons a t => rw [hmap] at hlen; simp at hlen
    refine ⟨?_, ?_, ?_, ?_⟩
    · rw [filesOf_deleteFilesOfVersion_self, hnil]
    · rfl
    · rfl
    · trivial

/-- Witness for C3 at the sample store: rolling the draft back to its own
version copies the single file and reports one file copied. -/
theorem rollback_replaces_draft_files_witness :
    (filesOf (rollback db0 1 2).1 2).map fileData = (filesOf db0 2).map fileData ∧
    (rollback db0 1 2).1.versions = db0.versions ∧
    (rollback db0 1 2).1.projects = db0.projects ∧
    (rollback db0 1 2).2 = RollbackResult.ok v2.versionNumber (filesOf db0 2).length :=
  rollback_replaces_draft_files db0 1 2 p1 2 v2 rfl rfl rfl

/-- C5: `delete_project` with confirm=false returns the distinct
not-confirmed outcome and leaves every row untouched; with confirm=true it
removes the project and all of its versions and files, so a subsequent
`get_project` on the same id fails with the not-found outcome. -/
theorem deleteProject_confirm_and_cascade (db : DB) (pid : Nat) (faults : DeleteFaults) :
    deleteProject db pid false faults = (db, DeleteResult.notConfirmed, []) ∧
    (deleteProject db pid true noFaults).2.1 = DeleteResult.deleted ∧
    findProject (deleteProject db pid true noFaults).1 pid = none ∧
    versionsOf (deleteProject db pid true noFaults).1 pid = [] ∧
    (∀ v ∈ versionsOf db pid, filesOf (deleteProject db pid true noFaults).1 v.id = []) ∧
    getProject (deleteProject db pid true noFaults).1 pid = GetProjectResult.notFound := by
  have hnotfound : findProject (deleteProject db pid true noFaults).1 pid = none := by
    simp only [deleteProject, noFaults, Bool.not_true, Bool.not_false, if_true, if_false,
      Bool.false_eq_true]
    by_cases hlen : (((versionsOf
        (db.updateProject pid (fun r =>
          { r with activeVersionId := none, draftVersionId := none })) pid).map
            (fun v => v.id)).length > 0)
    · rw [if_pos hlen]
      exact find?_filter_not_self _ _
    · rw [if_neg hlen]
      exact find?_filter_not_self _ _
  refine ⟨by simp [deleteProject], ?_, hnotfound, ?_, ?_, ?_⟩
  · simp only [deleteProject, noFaults, Bool.not_true, Bool.not_false, if_true, if_false,
      Bool.false_eq_true]
  · simp only [deleteProject, noFaults, Bool.not_true, Bool.not_false, if_true, if_false,
      Bool.false_eq_true]
    by_cases hlen : (((versionsOf
        (db.updateProject pid (fun r =>
          { r with activeVersionId := none, draftVersionId := none })) pid).map
            (fun v => v.id)).length > 0)
    · rw [if_pos hlen]
      exact filter_not_filter_nil _ _
    · rw [if_neg hlen]
      exact filter_not_filter_nil _ _
  · intro v hv
    simp only [deleteProject, noFaults, Bool.not_true, Bool.not_false, if_true, if_false,
      Bool.false_eq_true]
    have hvids : v.id ∈ (versionsOf
        (db.updateProject pid (fun r =>
          { r with activeVersionId := none, draftVersionId := none })) pid).map
            (fun w => w.id) := by
      have : versionsOf (db.updateProject pid (fun r =>
          { r with activeVersionId := none, draftVersionId := none })) pid
          = versionsOf db pid := rfl
      rw [this]
      exact List.mem_map_of_mem _ hv
    have hlen : (((versionsOf
        (db.updateProject pid (fun r =>
          { r with activeVersionId := none, draftVersionId := none })) pid).map
            (fun v => v.id)).length > 0) :=
      List.length_pos.mpr (List.ne_nil_of_mem hvids)
    rw [if_pos hlen]
    exact filesOf_deleteFilesIn_mem _ _ _ hvids
  · simp only [getProject, hnotfound]

/-- C6 counterexample: with the file-deletion step failing (its rows remain
in the store) and every other step succeeding, `delete_project` still
reports plain success — the file-deletion failure is silently swallowed, so
the claim that each step's storage failure is reported individually is
false. -/
theorem deleteProject_swallows_file_failure :
    (deleteProject db0 1 true ⟨false, true, false, false⟩).2.1 = DeleteResult.deleted ∧
    f3 ∈ (deleteProject db0 1 true ⟨false, true, false, false⟩).1.files := by
  refine ⟨by decide, by decide⟩

/-- C6 amended: `delete_project` performs its steps in the claimed order —
clear the project's version pointers, then delete the files of all the
project's versions (attempted only when versions exist), then delete the
versions, then delete the project row, as the attempted-step trace shows —
and the failures of the pointer-clearing step and of the project-row
deletion are reported to the caller; but the failures of the file-deletion
and version-deletion steps are silently swallowed: whatever those two flags,
the reported outcome is unchanged. -/
theorem deleteProject_order_and_reporting (db : DB) (pid : Nat) (fB fC : Bool) :
    deleteProject db pid true ⟨true, fB, fC, false⟩
      = (db, DeleteResult.clearError, [DeleteStep.clearPointers]) ∧
    deleteProject db pid true ⟨true, fB, fC, true⟩
      = (db, DeleteResult.clearError, [DeleteStep.clearPointers]) ∧
    (deleteProject db pid true ⟨false, fB, fC, false⟩).2.2
      = DeleteStep.clearPointers ::
          ((if ((versionsOf db pid).map (fun v => v.id)).length > 0
              then [DeleteStep.deleteFiles] else [])
            ++ [DeleteStep.deleteVersions, DeleteStep.deleteProject]) ∧
    (deleteProject db pid true ⟨false, fB, fC, true⟩).2.1 = DeleteResult.deleteError ∧
    (deleteProject db pid true ⟨false, fB, fC, false⟩).2.1 = DeleteResult.deleted := by
  refine ⟨by simp [deleteProject], by simp [deleteProject], ?_, ?_, ?_⟩
  · simp only [deleteProject, Bool.not_true, Bool.not_false, if_true, if_false,
      Bool.false_eq_true]
    rfl
  · simp only [deleteProject, Bool.not_true, Bool.not_false, if_true, if_false,
      Bool.true_eq_false, Bool.false_eq_true]
  · simp only [deleteProject, Bool.not_true, Bool.not_false, if_true, if_false,
      Bool.false_eq_true]

/-- C1: a successful publish of a project whose draft is version N (row `v`)
sets `activeVersionId` to that version, whose `isDraft` becomes false;
creates a new draft version numbered N+1 linked as `draftVersionId`; and the
new draft's file set — path, content and content type of every file — equals
the just-published version's file set at the moment of publish, which is
itself left unchanged. -/
theorem publish_success_spec (db : DB) (pid : Nat) (msg : Option String)
    (p : ProjectRow) (d : Nat) (v : VersionRow)
    (h1 : findProject db pid = some p) (h2 : p.draftVersionId = some d)
    (h3 : findVersion db d = some v) (hwf : db.WF) :
    (publish db pid msg false).2
      = PublishResult.published (String.append "/app/" p.slug) v.versionNumber db.nextId ∧
    findProject (publish db pid msg false).1 pid
      = some { p with activeVersionId := some d, draftVersionId := some db.nextId,
                      status := "published" } ∧
    findVersion (publish db pid msg false).1 d
      = some { v with isDraft := false, message := msg.getD "Published" } ∧
    findVersion (publish db pid msg false).1 db.nextId
      = some ⟨db.nextId, p.id, v.versionNumber + 1, "Draft", true⟩ ∧
    (filesOf (publish db pid msg false).1 db.nextId).map fileData
      = (filesOf db d).map fileData ∧
    filesOf (publish db pid msg false).1 d = filesOf db d := by
  have hid : p.id = pid := findProject_some_id db pid p h1
  have hvd : v.id = d := findVersion_some_id db d v h3
  have hdlt : d < db.nextId := hvd ▸ hwf.1 v (findVersion_mem db d v h3)
  have hnd : db.nextId ≠ d := by omega
  have hv1 : findVersion (db.updateVersion d (fun w =>
      { w with isDraft := false, message := msg.getD "Published" })) d
      = some { v with isDraft := false, message := msg.getD "Published" } := by
    rw [findVersion_updateVersion _ _ _ (by intro w; rfl) d, h3]
    simp [hvd]
  have hvnone : findVersion (db.updateVersion d (fun w =>
      { w with isDraft := false, message := msg.getD "Published" })) db.nextId = none := by
    rw [findVersion_updateVersion _ _ _ (by intro w; rfl) db.nextId,
      findVersion_nextId db hwf]
    rfl
  simp only [publish, h1, h2, Bool.false_eq_true, if_false, hv1, Option.map_some,
    Option.getD_some, insertVersion_snd, updateVersion_nextId, filesOf_insertVersion,
    filesOf_updateVersion]
  by_cases hlen : (filesOf db d).length > 0
  · rw [if_pos hlen]
    refine ⟨rfl, ?_, ?_, ?_, ?_, ?_⟩
    · rw [findProject_updateProject _ _ _ (by intro r; rfl) pid,
        findProject_insertFileRows, findProject_insertVersion,
        findProject_updateVersion, h1]
      simp [hid]
    · rw [findVersion_updateProject, findVersion_insertFileRows,
        findVersion_insertVersion, hv1]
      rfl
    · rw [findVersion_updateProject, findVersion_insertFileRows,
        findVersion_insertVersion, hvnone]
      simp [updateVersion_nextId]
    · rw [filesOf_updateProject, filesOf_insertFileRows_self, filesOf_insertVersion,
        filesOf_updateVersion, filesOf_nextId db hwf]
      rfl
    · rw [filesOf_updateProject, filesOf_insertFileRows_other _ _ _ _ hnd,
        filesOf_insertVersion, filesOf_updateVersion]
  · rw [if_neg hlen]
    have hnil : filesOf db d = [] := by
      cases hmap : filesOf db d with
      | nil => rfl
      | cons a t => rw [hmap] at hlen; simp at hlen
    refine ⟨rfl, ?_, ?_, ?_, ?_, ?_⟩
    · rw [findProject_updateProject _ _ _ (by intro r; rfl) pid,
        findProject_insertVersion, findProject_updateVersion, h1]
      simp [hid]
    · rw [findVersion_updateProject, findVersion_insertVersion, hv1]
      rfl
    · rw [findVersion_updateProject, findVersion_insertVersion, hvnone]
      simp [updateVersion_nextId]
    · rw [filesOf_updateProject, filesOf_insertVersion, filesOf_updateVersion,
        filesOf_nextId db hwf, hnil]
    · rw [filesOf_updateProject, filesOf_insertVersion, filesOf_updateVersion]

/-- Witness for C1 at the sample store: publishing project 1 promotes draft
version 2 (numbered 1), creates draft version 4 numbered 2, and copies the
single file. -/
theorem publish_success_spec_witness :
    (publish db0 1 none false).2
      = PublishResult.published (String.append "/app/" p1.slug) v2.versionNumber db0.nextId ∧
    findProject (publish db0 1 none false).1 1
      = some { p1 with activeVersionId := some 2, draftVersionId := some db0.nextId,
                       status := "published" } ∧
    findVersion (publish db0 1 none false).1 2
      = some { v2 with isDraft := false, message := Option.none.getD "Published" } ∧
    findVersion (publish db0 1 none false).1 db0.nextId
      = some ⟨db0.nextId, p1.id, v2.versionNumber + 1, "Draft", true⟩ ∧
    (filesOf (publish db0 1 none false).1 db0.nextId).map fileData
      = (filesOf db0 2).map fileData ∧
    filesOf (publish db0 1 none false).1 2 = filesOf db0 2 :=
  publish_success_spec db0 1 none p1 2 v2 rfl rfl rfl (by decide)

end Shapps
